import Mathlib

set_option maxRecDepth 8000

/-!
Verification development for the tab_frontend repository.

The Python sources are shallowly embedded as Lean functions:

* `compute_suggestion_metrics.py` : the log-replay engine (`stepRow`, `replay`,
  `compute_metrics_for_csv`) over a virtual buffer of origin tags;
* `run_testcases.py` : output normalization, the pass predicate, the builtin
  fixture table, case selection and the exit-code logic of the harness;
* `compute_aggregate_metrics.py` : the two-proportion z-test, the mapping-file
  loader and the per-method aggregation.

Python strings are modelled as Lean `String` (a list of characters); machine
integers as `Int`/`Nat`; the `None`-able values as `Option`; code that can
raise an uncaught exception returns `Except`.
-/

namespace TabFrontend

/-! ## Python string primitives

Helpers mirroring the Python `str` operations used by the sources.  They are
written over `String.data` so that concrete instances reduce inside the
kernel. -/

/-- Characters treated as whitespace by Python's `str.strip` / `str.rstrip`
(ASCII part: space, tab, newline, carriage return, vertical tab, form feed). -/
def pyIsSpace (c : Char) : Bool :=
  c == ' ' || c == '\t' || c == '\n' || c == '\r' ||
  c == Char.ofNat 11 || c == Char.ofNat 12

/-- Strip leading and trailing whitespace from a character list (`str.strip`). -/
def trimChars (cs : List Char) : List Char :=
  ((cs.dropWhile pyIsSpace).reverse.dropWhile pyIsSpace).reverse

/-- Python `s.strip()`. -/
def trimS (s : String) : String :=
  String.mk (trimChars s.data)

/-- Python `s.rstrip()` (strip trailing whitespace only). -/
def pyRstrip (s : String) : String :=
  String.mk (s.data.reverse.dropWhile pyIsSpace).reverse

/-- Split a character list at every occurrence of `sep`; like Python
`s.split(sep)`, the result always has one more part than there are
separators (so the empty list of characters yields one empty part). -/
def splitCharList (sep : Char) : List Char → List (List Char)
  | [] => [[]]
  | c :: rest =>
    let r := splitCharList sep rest
    if c = sep then [] :: r
    else
      match r with
      | [] => [[c]]
      | h :: t => (c :: h) :: t

/-- Python `line.split("\t")`. -/
def splitTabs (s : String) : List String :=
  (splitCharList '\t' s.data).map String.mk

/-- Accumulate decimal digits; `none` as soon as a non-digit appears. -/
def digitsValAux : List Char → Nat → Option Nat
  | [], acc => some acc
  | c :: rest, acc =>
    if c.isDigit then digitsValAux rest (acc * 10 + (c.toNat - 48)) else none

/-- Value of a non-empty all-digit character list, else `none`. -/
def digitsVal? (cs : List Char) : Option Nat :=
  if cs.isEmpty then none else digitsValAux cs 0

/-- Python `int(s)` on a string: surrounding whitespace is stripped, an
optional sign is allowed, and the rest must be decimal digits; `none` models
the `ValueError` raised otherwise.  (Digit-group underscores and non-ASCII
digits, which Python also accepts, are not modelled; no log uses them.) -/
def pyIntStr (s : String) : Option Int :=
  match trimChars s.data with
  | '-' :: rest => (digitsVal? rest).map (fun n => -(n : Int))
  | '+' :: rest => (digitsVal? rest).map (fun n => (n : Int))
  | cs => (digitsVal? cs).map (fun n => (n : Int))

/-! ## Suggestion Metrics Engine
(src/analysis/compute_suggestion_metrics.py) -/

/-- Buffer origin tags: `S` (suggested), `T` (typed), `U` (unknown). -/
inductive Tag where
  | S
  | T
  | U
deriving DecidableEq, Repr

/-- The result record of `compute_metrics_for_csv` (the `Metrics` dataclass). -/
structure Metrics where
  proposed : Nat := 0
  accepted : Nat := 0
  suggested_chars : Nat := 0
  suggested_chars_deleted : Nat := 0
deriving DecidableEq, Repr

/-- The mutable replay state of `compute_metrics_for_csv`: the virtual buffer
of origin tags, the caret, and the four counters. -/
structure St where
  buf : List Tag
  caret : Nat
  proposed : Nat
  accepted : Nat
  suggested_chars : Nat
  suggested_chars_deleted : Nat
deriving DecidableEq, Repr

/-- The initial replay state: empty buffer, caret 0, all counters 0. -/
def initSt : St := ⟨[], 0, 0, 0, 0, 0⟩

/-- The source's `clamp(v, lo, hi) = max(lo, min(hi, v))`. -/
def clampI (v lo hi : Int) : Int := max lo (min hi v)

/-- Clamp an integer into `[0, hi]` and return it as a `Nat` (every caret the
replay stores has been clamped this way). -/
def clampNat (v : Int) (hi : Nat) : Nat := (clampI v 0 (hi : Int)).toNat

/-- One logical log row as the replay sees it: the (stripped) `action_type`
value, the raw `action_info` field if present, and the raw `caret_index`
field if present (`none` both when the column is absent and when the row is
too short, which Python's `DictReader` fills with `None`). -/
structure Row where
  action : String
  info : Option String
  caretField : Option String
deriving DecidableEq, Repr

/-- The raw `caret_after` of a row before any clamping:
`int((row.get(caret_col) or caret)) if caret_col else caret`, with a
`ValueError` falling back to the current caret. -/
def caretAfterRawOf (st : St) (row : Row) : Int :=
  match row.caretField with
  | none => (st.caret : Int)
  | some s => if s = "" then (st.caret : Int) else (pyIntStr s).getD (st.caret : Int)

/-- The `caret_after` value the replay works with: clamped into
`[0, len(buf)]` for every action except `accepted_suggestion`, which uses the
raw value (and clamps only after mutating the buffer). -/
def caretAfterOf (st : St) (row : Row) : Int :=
  if row.action = "accepted_suggestion" then caretAfterRawOf st row
  else clampI (caretAfterRawOf st row) 0 (st.buf.length : Int)

/-- The deletion count `n` of a `deletion` row: the integer parsed from
`action_info` when positive, else `max(0, before - caret_after)`. -/
def delN (st : St) (info : Option String) (caretAfter : Int) : Int :=
  let n0 : Int :=
    match info with
    | none => 0
    | some s => (pyIntStr s).getD 0
  if n0 ≤ 0 then max 0 ((st.caret : Int) - caretAfter) else n0

/-- How many characters the deletion loop actually removes:
`min(n, caret)` after the caret has been clamped into the buffer. -/
def delCountOf (st : St) (info : Option String) (caretAfter : Int) : Nat :=
  min (delN st info caretAfter).toNat (clampNat (st.caret : Int) st.buf.length)

/-- The deletion loop: `k` times pop `buf[caret-1]`, decrement the caret, and
count popped `S` tags.  Returns the new buffer, the new caret, and the count
of deleted suggested characters. -/
def delLoop : Nat → List Tag → Nat → Nat → (List Tag × Nat × Nat)
  | 0, buf, caret, dels => (buf, caret, dels)
  | k + 1, buf, caret, dels =>
    let ch := buf.getD (caret - 1) Tag.U
    delLoop k (buf.eraseIdx (caret - 1)) (caret - 1)
      (if ch = Tag.S then dels + 1 else dels)

/-- Pad the buffer with `U` tags up to position `before` when the caret-before
position exceeds the buffer (`buf.extend(["U"] * (before - len(buf)))`). -/
def padTo (buf : List Tag) (before : Nat) : List Tag :=
  if buf.length < before then buf ++ List.replicate (before - buf.length) Tag.U else buf

/-- The accepted suggestion's length `len(info) if info else 0` (an absent
field and the falsy empty string both yield 0, which coincides with the
length of the empty string). -/
def suggestionLengthOf (info : Option String) : Nat :=
  match info with
  | none => 0
  | some s => s.length

/-- The `accepted_suggestion` branch: count the acceptance, insert
`len(info)` suggested tags at the caret-before position (padding with
unknowns first if needed), and clamp the caret to the reported position. -/
def acceptedStep (st : St) (info : Option String) (caretAfter : Int) : St :=
  let suggestion_length : Nat := suggestionLengthOf info
  let st' := { st with accepted := st.accepted + 1 }
  if 0 < suggestion_length then
    let buf0 := padTo st.buf st.caret
    let buf1 := buf0.take st.caret ++ List.replicate suggestion_length Tag.S ++ buf0.drop st.caret
    { st' with buf := buf1,
               suggested_chars := st.suggested_chars + suggestion_length,
               caret := clampNat caretAfter buf1.length }
  else { st' with caret := clampNat caretAfter st.buf.length }

/-- The `character_typed` branch: insert `max(0, caret_after - before)` typed
tags at the caret-before position. -/
def typedStep (st : St) (caretAfter : Int) : St :=
  let d : Nat := (max 0 (caretAfter - (st.caret : Int))).toNat
  if 0 < d then
    let buf0 := padTo st.buf st.caret
    let buf1 := buf0.take st.caret ++ List.replicate d Tag.T ++ buf0.drop st.caret
    { st with buf := buf1, caret := clampNat caretAfter buf1.length }
  else { st with caret := clampNat caretAfter st.buf.length }

/-- The `deletion` branch: remove `min(n, caret)` characters immediately
preceding the (re-clamped) caret, counting removed suggested tags, then sync
the caret to the reported position. -/
def deletionStep (st : St) (info : Option String) (caretAfter : Int) : St :=
  let caret1 : Nat := clampNat (st.caret : Int) st.buf.length
  let k : Nat := delCountOf st info caretAfter
  let r := delLoop k st.buf caret1 0
  { st with buf := r.1,
            suggested_chars_deleted := st.suggested_chars_deleted + r.2.2,
            caret := clampNat caretAfter r.1.length }

/-- The `current_code` branch: replace the buffer with `max(0, caret_after)`
unknown tags. -/
def currentCodeStep (st : St) (caretAfter : Int) : St :=
  let buf1 := List.replicate (max 0 caretAfter).toNat Tag.U
  { st with buf := buf1, caret := clampNat caretAfter buf1.length }

/-- Process one log row (the body of the `for row in reader` loop). -/
def stepRow (st : St) (row : Row) : St :=
  let caretAfter := caretAfterOf st row
  if row.action = "proposed_suggestion" then
    { st with proposed := st.proposed + 1 }
  else if row.action = "accepted_suggestion" then
    acceptedStep st row.info caretAfter
  else if row.action = "character_typed" then
    typedStep st caretAfter
  else if row.action = "deletion" then
    deletionStep st row.info caretAfter
  else if row.action = "current_code" then
    currentCodeStep st caretAfter
  else
    { st with caret := clampNat caretAfter st.buf.length }

/-- Replay a whole log from the initial state. -/
def replay (rows : List Row) : St :=
  rows.foldl stepRow initSt

/-- Read the four counters out of a replay state. -/
def metricsOf (st : St) : Metrics :=
  ⟨st.proposed, st.accepted, st.suggested_chars, st.suggested_chars_deleted⟩

/-- Index of the column whose whitespace-trimmed name equals `target`; the
LAST such index, because the source's `{h.strip(): h for h in fieldnames}`
dictionary keeps the last binding and the row dictionary of `DictReader`
then resolves the duplicate field name to its last position. -/
def findCol (fields : List String) (target : String) : Option Nat :=
  (List.range fields.length).foldl
    (fun acc i => if trimS (fields.getD i "") = target then some i else acc) none

/-- Build the logical `Row` of one data line from the column indices:
`(row.get(action_col) or "").strip()`, `row.get(info_col)` and the raw caret
field, with fields beyond the end of the line read as `None`. -/
def rowOfFields (aIdx : Nat) (iIdx? cIdx? : Option Nat) (parts : List String) : Row :=
  { action := trimS ((parts.get? aIdx).getD ""),
    info := iIdx?.bind (fun i => parts.get? i),
    caretField := cIdx?.bind (fun i => parts.get? i) }

/-- The position-based fallback loop (no `action_type` column): split each
line on tabs, skip lines with fewer than two fields, and count second fields
equal to `proposed_suggestion` / `accepted_suggestion`. -/
def fallbackLoop : List String → Nat → Nat → (Nat × Nat)
  | [], p, a => (p, a)
  | line :: rest, p, a =>
    let parts := splitTabs line
    if parts.length < 2 then fallbackLoop rest p a
    else
      let action := parts.getD 1 ""
      if action = "proposed_suggestion" then fallbackLoop rest (p + 1) a
      else if action = "accepted_suggestion" then fallbackLoop rest p (a + 1)
      else fallbackLoop rest p a

/-- `compute_metrics_for_csv`, modelled on the file's logical lines (each line
without its terminator; the tab-separated CSV logs use no quoting, so one csv
record is one tab-split line).  An empty file, or a file whose first line is
blank (`reader.fieldnames` falsy), yields the default `Metrics`.  When no
column trims to `action_type`, the position-based fallback runs over the
remaining raw lines; otherwise every non-blank data line (the `DictReader`
skips blank rows) is replayed through `stepRow`. -/
def compute_metrics_for_csv (lines : List String) : Metrics :=
  match lines with
  | [] => {}
  | header :: rest =>
    if header = "" then {}
    else
      let fieldnames := splitTabs header
      match findCol fieldnames "action_type" with
      | none =>
        let r := fallbackLoop rest 0 0
        { proposed := r.1, accepted := r.2 }
      | some aIdx =>
        let iIdx? := findCol fieldnames "action_info"
        let cIdx? := findCol fieldnames "caret_index"
        let rows := (rest.filter (fun l => l ≠ "")).map
          (fun l => rowOfFields aIdx iIdx? cIdx? (splitTabs l))
        metricsOf (replay rows)

/-! ## Solution Test Harness
(src/run_testcases.py) -/

/-- Python `s.splitlines()` restricted to the `"\n"` terminator: the empty
string has no lines, and a trailing newline does not open a final empty line.
(The other Python terminators are irrelevant here: `"\r"` only ever reaches
`normalize` as part of `"\r\n"`, and the per-line `rstrip` removes it.) -/
def pySplitlines (s : String) : List String :=
  match s.data with
  | [] => []
  | cs =>
    let parts := splitCharList '\n' cs
    if cs.getLast? = some '\n' then (parts.dropLast).map String.mk
    else parts.map String.mk

/-- Join lines with `"\n"` (Python `"\n".join(lines)`). -/
def joinNl : List String → String
  | [] => ""
  | [s] => s
  | s :: rest => s ++ "\n" ++ joinNl rest

/-- Python `s.endswith("\n")`. -/
def endsWithNl (s : String) : Bool :=
  s.data.getLast? == some '\n'

/-- The harness's `normalize`: strip trailing whitespace from every line,
then append one `"\n"` if the result is non-empty and lacks one. -/
def normalize (s : String) : String :=
  let t := joinNl ((pySplitlines s).map pyRstrip)
  if t = "" then t
  else if endsWithNl t then t
  else t ++ "\n"

/-- The per-case pass predicate of `main`:
`passed = (exp_cmp == out_cmp) and (completed.returncode == 0)`, where the
compared strings are normalized unless `--exact` was given. -/
def casePassed (exact : Bool) (expected got : String) (returncode : Int) : Bool :=
  let cmp := if exact then (expected, got) else (normalize expected, normalize got)
  (cmp.1 == cmp.2) && (returncode == 0)

/-- The fields of `subprocess.CompletedProcess` the harness uses. -/
structure CompletedProcess where
  returncode : Int
  stdout : String
  stderr : String
deriving DecidableEq, Repr

/-- What happened to the child process: it completed (with whatever exit code
and captured streams), or the wall-clock timeout expired with the given
partially captured streams (`None` when nothing was captured). -/
inductive ExecOutcome where
  | completed (returncode : Int) (stdout stderr : String)
  | timedOut (stdout? stderr? : Option String)
deriving DecidableEq, Repr

/-- Python `x or d` on an optional bytes value: `None` and the empty string
are falsy. -/
def pyOr (x : Option String) (d : String) : String :=
  match x with
  | none => d
  | some s => if s = "" then d else s

/-- `run_one_case` as a function of the child-process outcome: a completed
child is returned as is; on `TimeoutExpired` the handler synthesizes
`CompletedProcess(returncode=-9, stdout=e.stdout or b"", stderr=e.stderr or
b"TIMEOUT")`. -/
def run_one_case : ExecOutcome → CompletedProcess
  | .completed rc out err => ⟨rc, out, err⟩
  | .timedOut out? err? => ⟨-9, pyOr out? "", pyOr err? "TIMEOUT"⟩

/-- One `{in, out}` fixture pair. -/
structure TestCase where
  input : String
  expected : String
deriving DecidableEq, Repr

/-- The builtin `keyboard` fixtures. -/
def keyboardCases : List TestCase :=
  [⟨"5\na\nb\nc\nd\ne\n", "abcde"⟩,
   ⟨"5\n^\na\nb\n^\nc\n", "ABc"⟩,
   ⟨"6\n~\na\nb\nc\n~\nd\ne\n", "abbccde"⟩,
   ⟨"10\n#\n1\n2\n.\n3\n.\n4\n#\nA\n5\n", "12.34"⟩,
   ⟨"7\n^\na\n~\nb\nc\n~\nd\n^\ne\n", "ABBCCDe"⟩,
   ⟨"6\na\n \nb\n^\nc\n \nd\n", "a bC d"⟩]

/-- The builtin `lava` fixtures. -/
def lavaCases : List TestCase :=
  [⟨"3\n...\n...\n...\n2 2 R\n5\nMOVE\nFACE U\nMOVE\nFACE L\nMOVE\n",
    "2 3 R\n2 3 U\n1 3 U\n1 3 L\n1 2 L\n"⟩,
   ⟨"3\n..L\n...\n...\n2 2 R\n3\nMOVE\nFACE U\nMOVE\n",
    "2 3 R\n2 3 U\nGame Over\n"⟩,
   ⟨"5\n.....\n..L..\n.....\n.....\n.....\n3 3 D\n4\nFACE L\nFACE U\nFACE R\nFACE D\n",
    "3 3 L\n3 3 U\n3 3 R\n3 3 D\n"⟩,
   ⟨"4\n....\nL..L\n.L..\n....\n4 1 U\n5\nMOVE\nFACE R\nMOVE\nFACE U\nMOVE\n",
    "3 1 U\n3 1 R\nGame Over\n"⟩,
   ⟨"6\n......\n..L...\n...L..\n......\n.L....\n......\n1 1 R\n8\nMOVE\nMOVE\nMOVE\nFACE D\nMOVE\nFACE R\nMOVE\nMOVE\n",
    "1 2 R\n1 3 R\n1 4 R\n1 4 D\n2 4 D\n2 4 R\n2 5 R\n2 6 R\n"⟩]

/-- The builtin `binary_search` fixtures. -/
def binarySearchCases : List TestCase :=
  [⟨"-5 -1 0 0.1 0.2\n0.5\n", "2\n"⟩,
   ⟨"10 20 30\n1000000000\n", "2\n"⟩,
   ⟨"-10 -9 -8\n1.0001\n", "-1\n"⟩,
   ⟨"-20 -10 -5\n0.000001\n", "1\n"⟩]

/-- The builtin `merge` fixtures. -/
def mergeCases : List TestCase :=
  [⟨"1.0 3.0 5.0\n2.0 4.0 6.0\n0\n", "1.0 2.0 3.0 4.0 5.0 6.0\n"⟩,
   ⟨"1.0 2.0\n3.0 4.0\n0\n", "1.0 2.0 3.0 4.0\n"⟩,
   ⟨"1.0 2.0 2.0 5.0\n2.0 2.0 3.0\n0\n", "1.0 2.0 2.0 2.0 2.0 3.0 5.0\n"⟩,
   ⟨"-3.5 -1.2 0.0\n-2.0 -1.2 2.4\n0\n", "-3.5 -2.0 -1.2 -1.2 0.0 2.4\n"⟩,
   ⟨"0.1 0.2 0.3 4.0\n0.15 0.25\n0\n", "0.1 0.15 0.2 0.25 0.3 4.0\n"⟩,
   ⟨"1.5\n1.4\n0\n", "1.4 1.5\n"⟩,
   ⟨"100.0 200.0\n-50.0 0.0 50.0\n0\n", "-50.0 0.0 50.0 100.0 200.0\n"⟩,
   ⟨"1.1 1.2\n1.1 1.2\n0\n", "1.1 1.1 1.2 1.2\n"⟩]

/-- The builtin `cancel` fixtures. -/
def cancelCases : List TestCase :=
  [⟨"1 2 3\n", "1 2 3\n"⟩,
   ⟨"-2 1 2 3 4\n", "3 4\n"⟩,
   ⟨"-2 0 1 0 -1 2 0 3\n", "0 0 3\n"⟩,
   ⟨"-3 1 -2 2 2 2\n", "-2\n"⟩,
   ⟨"1 2 -1 3 4\n", "1 2 4\n"⟩,
   ⟨"-1 -2 1 2 3\n", "-2\n"⟩,
   ⟨"0 0 -2 0 0 1 0\n", "0 0 1 0\n"⟩,
   ⟨"-2 -1 -1 5\n", "-1 -1\n"⟩]

/-- The builtin `vector` fixtures. -/
def vectorCases : List TestCase :=
  [⟨"1 0\n0 1\n", "1.5707963267948966\n"⟩,
   ⟨"1 0\n1 0\n", "0.0\n"⟩,
   ⟨"1 0\n-1 0\n", "3.141592653589793\n"⟩,
   ⟨"1 2 3\n4 5 6\n", "0.2257261285527342\n"⟩,
   ⟨"2 0 0\n1 1 0\n", "0.7853981633974484\n"⟩,
   ⟨"1 1 1\n-1 1 -1\n", "1.9106332362490186\n"⟩,
   ⟨"-1 0\n1 1\n", "2.356194490192345\n"⟩]

/-- `BUILTIN_CASES`: the literal builtin fixture table; note there is no
entry under the key `transducer`. -/
def BUILTIN_CASES : List (String × List TestCase) :=
  [("keyboard", keyboardCases),
   ("lava", lavaCases),
   ("binary_search", binarySearchCases),
   ("merge", mergeCases),
   ("cancel", cancelCases),
   ("vector", vectorCases)]

/-- Python `table[mode]` on a string-keyed dictionary: `none` models the
`KeyError`. -/
def lookupCases (tbl : List (String × List TestCase)) (mode : String) :
    Option (List TestCase) :=
  (tbl.find? (fun p => p.1 == mode)).map (fun p => p.2)

/-- `choose_cases`: the external fixture table wins when supplied, else the
builtin table; a missing key raises an uncaught `KeyError`, modelled as
`Except.error` carrying the missing key. -/
def choose_cases (mode : String)
    (cases_from_file : Option (List (String × List TestCase))) :
    Except String (List TestCase) :=
  match cases_from_file with
  | some tbl =>
    match lookupCases tbl mode with
    | some cs => .ok cs
    | none => .error mode
  | none =>
    match lookupCases BUILTIN_CASES mode with
    | some cs => .ok cs
    | none => .error mode

/-- Whether one fixture passes, given the abstract child behaviour `run`
mapping a case to the child's `(returncode, stdout)`. -/
def runCasePassed (run : TestCase → Int × String) (exact : Bool) (c : TestCase) : Bool :=
  casePassed exact c.expected (run c).2 (run c).1

/-- The exit behaviour of `main` after argument parsing, as a function of the
selected mode, the optional external fixture table, and the child behaviour:
`Except.error` is the uncaught `KeyError` from `choose_cases`; otherwise the
exit code is 0 when no case failed and 1 otherwise.  (`--stop-on-fail` only
truncates reporting after the first failure; it cannot change the exit
code, so it is not a parameter here.) -/
def mainRun (mode : String)
    (cases_from_file : Option (List (String × List TestCase)))
    (run : TestCase → Int × String) (exact : Bool) : Except String Nat :=
  match choose_cases mode cases_from_file with
  | .error e => .error e
  | .ok cases =>
    let failed := cases.countP (fun c => ! runCasePassed run exact c)
    .ok (if failed = 0 then 0 else 1)

/-! ## Aggregate Metrics and Statistics
(src/analysis/compute_aggregate_metrics.py) -/

/-- The `AggregateMetrics` dataclass.  The three individual-measurement lists
hold per-problem rates; Python floats obtained from integer ratios are
modelled as rationals. -/
structure AggregateMetrics where
  total_proposed : Nat := 0
  total_accepted : Nat := 0
  total_suggested_chars : Nat := 0
  total_suggested_chars_deleted : Nat := 0
  problem_count : Nat := 0
  csv_file_count : Nat := 0
  individual_acceptance_rates : List ℚ := []
  individual_avg_deleted_chars : List ℚ := []
  individual_avg_suggestion_lengths : List ℚ := []
deriving DecidableEq, Repr

/-- `two_proportion_z_test`, with the float arithmetic modelled over the real
numbers.  `Phi` stands for the standard normal CDF supplied by the optional
statistics capability (`norm.cdf`), `scipy_available` for whether that
capability imported; `none` models the `float("nan")` sentinel.  The branch
structure follows the source: NaN when the capability is missing or either
`total_proposed` is 0; `0.5` when the sample proportions are equal and when
the pooled standard error is 0; otherwise the one-sided p-value
`1 - Phi((p1 - p2) / se)`. -/
noncomputable def two_proportion_z_test (Phi : ℝ → ℝ) (scipy_available : Bool)
    (m1 m2 : AggregateMetrics) : Option ℝ :=
  if ¬ scipy_available then none
  else
    let n1 := m1.total_proposed
    let x1 := m1.total_accepted
    let n2 := m2.total_proposed
    let x2 := m2.total_accepted
    if n1 = 0 ∨ n2 = 0 then none
    else
      let p1 : ℝ := (x1 : ℝ) / (n1 : ℝ)
      let p2 : ℝ := (x2 : ℝ) / (n2 : ℝ)
      if p1 = p2 then some (1 / 2)
      else
        let pooled : ℝ := ((x1 : ℝ) + (x2 : ℝ)) / ((n1 : ℝ) + (n2 : ℝ))
        let se : ℝ := Real.sqrt (pooled * (1 - pooled) * (1 / (n1 : ℝ) + 1 / (n2 : ℝ)))
        if se = 0 then some (1 / 2)
        else some (1 - Phi ((p1 - p2) / se))

/-- A JSON value, as `json.load` produces it. -/
inductive Json where
  | null
  | bool (b : Bool)
  | num (q : ℚ)
  | str (s : String)
  | arr (elems : List Json)
  | obj (entries : List (String × Json))

/-- The uncaught Python exceptions `load_mapping_file` can raise. -/
inductive PyErr where
  | attributeError
  | typeError
deriving DecidableEq, Repr

/-- Python truthiness of a JSON value (`None`, `False`, `0`, `""`, `[]` and
`{}` are falsy). -/
def truthy : Json → Bool
  | .null => false
  | .bool b => b
  | .num q => q ≠ 0
  | .str s => s ≠ ""
  | .arr elems => !elems.isEmpty
  | .obj entries => !entries.isEmpty

/-- Whether a JSON value is hashable, i.e. usable as a Python dictionary key
(lists and dictionaries are not). -/
def jsonHashable : Json → Bool
  | .arr _ => false
  | .obj _ => false
  | _ => true

/-- Python `d.get(key)` on a parsed JSON object (`None`, i.e. `Json.null`,
when absent; the last binding wins, as in a parsed duplicate-key object). -/
def jget (entries : List (String × Json)) (key : String) : Json :=
  match entries.reverse.find? (fun p => p.1 == key) with
  | some p => p.2
  | none => Json.null

/-- Whether one top-level mapping entry cannot crash the loader: either it is
not an object, or one of its two fields is missing/falsy (the entry is
skipped), or its `obfuscatedDirName` is hashable. -/
def entrySafe : Json → Bool
  | .obj fields =>
    !(truthy (jget fields "obfuscatedDirName") && truthy (jget fields "actualName")) ||
      jsonHashable (jget fields "obfuscatedDirName")
  | _ => true

/-- The loop of `load_mapping_file` over `mapping_data.values()`: skip values
that are not objects and entries missing either field (falsy values
included); `result[obfuscated] = actual` raises `TypeError` when the key is
unhashable.  The accumulated dictionary is represented as its insertion
sequence (a later pair for the same key overrides an earlier one). -/
def buildMapping : List (String × Json) → List (Json × Json) →
    Except PyErr (List (Json × Json))
  | [], acc => .ok acc
  | (_, v) :: rest, acc =>
    match v with
    | .obj fields =>
      let obfuscated := jget fields "obfuscatedDirName"
      let actual := jget fields "actualName"
      if truthy obfuscated && truthy actual then
        if jsonHashable obfuscated then buildMapping rest (acc ++ [(obfuscated, actual)])
        else .error .typeError
      else buildMapping rest acc
    | _ => buildMapping rest acc

/-- `load_mapping_file` as a function of the mapping file's state: `none` is
a missing file, `some (.error _)` a document `json.load` rejects (the
`JSONDecodeError` is caught and yields `{}` with a warning), and
`some (.ok doc)` a parsed document.  Calling `.values()` on a document that
is not an object raises an uncaught `AttributeError`. -/
def load_mapping_file (file : Option (Except Unit Json)) :
    Except PyErr (List (Json × Json)) :=
  match file with
  | none => .ok []
  | some (.error _) => .ok []
  | some (.ok (Json.obj kvs)) => buildMapping kvs []
  | some (.ok _) => .error .attributeError

/-- The per-assistant scan results of one problem directory:
assistant name, then csv file name, to `Metrics`. -/
abbrev ScanResults := List (String × List (String × Metrics))

/-- The `(problem_name, obfuscated_name)` pair list `process_all_problems`
accumulates for one real method name, walking every problem's mapping in
order. -/
def methodPairs (all_mappings : List (String × List (String × String)))
    (method : String) : List (String × String) :=
  all_mappings.foldl
    (fun acc pm =>
      acc ++ (pm.2.filter (fun q => q.2 == method)).map (fun q => (pm.1, q.1)))
    []

/-- The running totals of the per-method aggregation loop. -/
structure MethodAcc where
  tp : Nat := 0
  ta : Nat := 0
  tsc : Nat := 0
  tscd : Nat := 0
  cfc : Nat := 0
  iar : List ℚ := []
  iadc : List ℚ := []
  iasl : List ℚ := []

/-- Sum one assistant directory's log metrics:
(proposed, accepted, suggested chars, deleted suggested chars). -/
def sumLogs (csvs : List (String × Metrics)) : Nat × Nat × Nat × Nat :=
  csvs.foldl
    (fun acc p =>
      (acc.1 + p.2.proposed, acc.2.1 + p.2.accepted,
       acc.2.2.1 + p.2.suggested_chars, acc.2.2.2 + p.2.suggested_chars_deleted))
    (0, 0, 0, 0)

/-- One iteration of the aggregation loop over a `(problem, obfuscated)`
pair: find the problem's scan results (first name match), then the
obfuscated assistant's logs; if both exist, add the totals, count the csv
files, and append the per-problem rates guarded by `proposed > 0` and
`accepted > 0`. -/
def stepPair (all_results : List (String × ScanResults)) (acc : MethodAcc)
    (pr : String × String) : MethodAcc :=
  match (all_results.find? (fun r => r.1 == pr.1)).map (fun r => r.2) with
  | none => acc
  | some results =>
    match (results.find? (fun a => a.1 == pr.2)).map (fun a => a.2) with
    | none => acc
    | some csvs =>
      let s := sumLogs csvs
      let acc1 : MethodAcc :=
        { acc with tp := acc.tp + s.1, ta := acc.ta + s.2.1,
                   tsc := acc.tsc + s.2.2.1, tscd := acc.tscd + s.2.2.2,
                   cfc := acc.cfc + csvs.length }
      let acc2 : MethodAcc :=
        if 0 < s.1 then
          { acc1 with iar := acc1.iar ++ [(s.2.1 : ℚ) / (s.1 : ℚ) * 100] }
        else acc1
      if 0 < s.2.1 then
        { acc2 with iadc := acc2.iadc ++ [(s.2.2.2 : ℚ) / (s.2.1 : ℚ)],
                    iasl := acc2.iasl ++ [(s.2.2.1 : ℚ) / (s.2.1 : ℚ)] }
      else acc2

/-- The `AggregateMetrics` `process_all_problems` builds for one method from
its pair list: `problem_count` is the size of the set of distinct problem
names in the pair list, and the totals come from walking the pairs. -/
def aggregateForMethod (all_results : List (String × ScanResults))
    (pairs : List (String × String)) : AggregateMetrics :=
  let acc := pairs.foldl (stepPair all_results) {}
  { total_proposed := acc.tp,
    total_accepted := acc.ta,
    total_suggested_chars := acc.tsc,
    total_suggested_chars_deleted := acc.tscd,
    problem_count := ((pairs.map Prod.fst).dedup).length,
    csv_file_count := acc.cfc,
    individual_acceptance_rates := acc.iar,
    individual_avg_deleted_chars := acc.iadc,
    individual_avg_suggestion_lengths := acc.iasl }

/-- Count of suggested tags in a buffer. -/
def countS (l : List Tag) : Nat := l.count Tag.S

/-- The replay invariant: the caret lies inside the buffer, and the
suggested tags still in the buffer plus the deleted ones are accounted for
by `suggested_chars`. -/
def InvSt (st : St) : Prop :=
  st.caret ≤ st.buf.length ∧
  countS st.buf + st.suggested_chars_deleted ≤ st.suggested_chars


/-- A state with a two-character buffer, one suggested and one typed tag,
caret at the end (used to instantiate the replay statements). -/
def stW : St := ⟨[Tag.S, Tag.T], 2, 0, 0, 2, 0⟩

/-- A deletion row deleting 2 with an out-of-range (negative) reported
caret. -/
def rowDelW : Row := ⟨"deletion", some "2", some "-5"⟩


/-- A concrete strictly monotone stand-in for the normal CDF with value 1/2
at 0, used to instantiate the z-test statements. -/
noncomputable def PhiW : ℝ → ℝ := fun z => z + 1 / 2

/-- Metrics with 1 proposal and 2 acceptances (an acceptance rate above 1,
which the replay pipeline can produce since the two counters are counted
independently). -/
def mZa : AggregateMetrics := { total_proposed := 1, total_accepted := 2 }

/-- Metrics with 1 proposal and no acceptance. -/
def mZb : AggregateMetrics := { total_proposed := 1 }

/-- Metrics with 1 proposal and 1 acceptance. -/
def mZc : AggregateMetrics := { total_proposed := 1, total_accepted := 1 }

/-! ## Supporting lemmas -/

theorem data_append (a b : String) : (a ++ b).data = a.data ++ b.data := rfl

theorem endsWithNl_append_nl (t : String) : endsWithNl (t ++ "\n") = true := by
  simp [endsWithNl, data_append, List.getLast?_concat]

theorem normalize_ne_empty_endsWithNl (s : String)
    (h : normalize s ≠ "") : endsWithNl (normalize s) = true := by
  unfold normalize at *
  set t := joinNl ((pySplitlines s).map pyRstrip) with ht
  by_cases h0 : t = ""
  · simp [h0] at h
  · by_cases h1 : endsWithNl t
    · simp [h0, h1]
    · simpa [h0, h1] using endsWithNl_append_nl t

/-! ## Claim theorems -/

/-- Claim C1: in full replay mode, a log consisting of one
`accepted_suggestion` row with `action_info` "abc" and `caret_index` 3
followed by one `deletion` row with `action_info` "3" and `caret_index` 0,
starting from the empty buffer with caret 0, yields
`Metrics(proposed=0, accepted=1, suggested_chars=3,
suggested_chars_deleted=3)`. -/
theorem replay_accept_then_delete :
    compute_metrics_for_csv
        ["action_type\taction_info\tcaret_index",
         "accepted_suggestion\tabc\t3",
         "deletion\t3\t0"] =
      { proposed := 0, accepted := 1, suggested_chars := 3,
        suggested_chars_deleted := 3 } := by
  decide

/-- Claim C3: with default (non-exact) comparison a case passes iff the
normalized actual output equals the normalized expected output and the child
exit code is 0; the normalized string, when non-empty, ends with a line
terminator; and in particular actual output "abcde" (no trailing terminator)
is treated as equal to expected "abcde\n". -/
theorem case_passes_iff (expected out : String) (rc : Int) :
    (casePassed false expected out rc = true ↔
       (normalize expected = normalize out ∧ rc = 0)) ∧
    (normalize out ≠ "" → endsWithNl (normalize out) = true) ∧
    (normalize "abcde" = "abcde\n" ∧ normalize "abcde\n" = "abcde\n" ∧
     casePassed false "abcde\n" "abcde" 0 = true) := by
  refine ⟨?_, normalize_ne_empty_endsWithNl out, by decide, by decide, by decide⟩
  simp [casePassed, Bool.and_eq_true, beq_iff_eq]

/-- Witness for C3 at concrete inputs: the normalized output of "abcde" is
newline-terminated, and the "abcde" versus "abcde\n" case passes. -/
theorem case_passes_iff_witness :
    endsWithNl (normalize "abcde") = true ∧
    casePassed false "abcde\n" "abcde" 0 = true :=
  ⟨(case_passes_iff "" "abcde" 0).2.1 (by decide),
   (case_passes_iff "abcde\n" "abcde" 0).1.mpr ⟨by decide, rfl⟩⟩

/-- Counterexample to claim C8 as stated: when the timed-out child has
already produced stderr output (here "boom"), the synthesized result carries
that captured stderr, not the text "TIMEOUT" (the source computes
`e.stderr or b"TIMEOUT"`, so "TIMEOUT" is only the fallback for an empty
capture).  The return code is `-9` as claimed. -/
theorem run_one_case_timeout_cex :
    (run_one_case (.timedOut none (some "boom"))).returncode = -9 ∧
    (run_one_case (.timedOut none (some "boom"))).stderr = "boom" ∧
    "boom" ≠ "TIMEOUT" := by
  decide

/-- Claim C8 as amended: on timeout `run_one_case` synthesizes a result with
return code -9, stdout whatever was captured (empty if none), and stderr the
text "TIMEOUT" when no stderr was captured (or the capture is empty), else
the captured stderr itself. -/
theorem run_one_case_timeout (out? err? : Option String) :
    (run_one_case (.timedOut out? err?)).returncode = -9 ∧
    (run_one_case (.timedOut out? err?)).stdout = out?.getD "" ∧
    (err? = none ∨ err? = some "" →
       (run_one_case (.timedOut out? err?)).stderr = "TIMEOUT") ∧
    (∀ s, err? = some s → s ≠ "" →
       (run_one_case (.timedOut out? err?)).stderr = s) := by
  refine ⟨rfl, ?_, ?_, ?_⟩
  · cases out? with
    | none => rfl
    | some s =>
      by_cases h : s = "" <;> simp [run_one_case, pyOr, h]
  · rintro (h | h) <;> subst h <;> simp [run_one_case, pyOr]
  · rintro s rfl hne
    simp [run_one_case, pyOr, hne]

/-- Witness for C8 (amended) at concrete inputs: nothing captured on stderr
gives "TIMEOUT", a non-empty capture is passed through. -/
theorem run_one_case_timeout_witness :
    (run_one_case (.timedOut none none)).stderr = "TIMEOUT" ∧
    (run_one_case (.timedOut none (some "e"))).stderr = "e" :=
  ⟨(run_one_case_timeout none none).2.2.1 (Or.inl rfl),
   (run_one_case_timeout none (some "e")).2.2.2 "e" rfl (by decide)⟩

theorem fallbackLoop_spec (lines : List String) (p a : Nat) :
    fallbackLoop lines p a =
      (p + lines.countP (fun l => (splitTabs l)[1]? == some "proposed_suggestion"),
       a + lines.countP (fun l => (splitTabs l)[1]? == some "accepted_suggestion")) := by
  induction lines generalizing p a with
  | nil => simp [fallbackLoop]
  | cons l t ih =>
    simp only [fallbackLoop]
    cases h1 : (splitTabs l)[1]? with
    | none =>
      have hlen : (splitTabs l).length < 2 := by
        have := List.getElem?_eq_none_iff.mp h1; omega
      simp [hlen, ih, List.countP_cons, h1]
    | some x =>
      have hlen : ¬ (splitTabs l).length < 2 := by
        have := (List.getElem?_eq_some_iff.mp h1).1; omega
      have hD : (splitTabs l).getD 1 "" = x := by
        simp [List.getD_eq_getElem?_getD, h1]
      by_cases hp : x = "proposed_suggestion"
      · subst hp
        simp [hlen, hD, ih, List.countP_cons, h1, Nat.add_assoc, Nat.add_comm 1]
      · by_cases ha : x = "accepted_suggestion"
        · subst ha
          simp [hlen, hD, ih, List.countP_cons, h1, hp, Nat.add_assoc, Nat.add_comm 1]
        · simp [hlen, hD, ih, List.countP_cons, h1, hp, ha]

/-- Counterexample to claim C7 as stated: a log whose first line is blank has
a header containing no `action_type` column, yet `compute_metrics_for_csv`
returns the all-zero `Metrics` without running the fallback over the
remaining lines (Python's `reader.fieldnames` is falsy), even though the
second line's second field is `proposed_suggestion` and the fallback would
count it. -/
theorem fallback_mode_cex :
    findCol (splitTabs "") "action_type" = none ∧
    compute_metrics_for_csv ["", "x\tproposed_suggestion"] =
      { proposed := 0, accepted := 0, suggested_chars := 0,
        suggested_chars_deleted := 0 } ∧
    (["x\tproposed_suggestion"].countP
        (fun l => (splitTabs l)[1]? == some "proposed_suggestion")) = 1 := by
  decide

/-- Claim C7 as amended: for every log whose header row is non-empty and
contains no `action_type` column, `compute_metrics_for_csv` runs the
position-based fallback: it skips the header line, splits each remaining
line on tabs, treats the second field as the action name, and returns
`Metrics` counting the lines whose second field is exactly
`proposed_suggestion` / `accepted_suggestion`, with both character-level
counters 0.  (A log whose first line is empty yields the all-zero `Metrics`
without parsing any rows.) -/
theorem fallback_mode (header : String) (rest : List String)
    (hne : header ≠ "")
    (hno : findCol (splitTabs header) "action_type" = none) :
    compute_metrics_for_csv (header :: rest) =
      { proposed := rest.countP (fun l => (splitTabs l)[1]? == some "proposed_suggestion"),
        accepted := rest.countP (fun l => (splitTabs l)[1]? == some "accepted_suggestion"),
        suggested_chars := 0, suggested_chars_deleted := 0 } := by
  simp only [compute_metrics_for_csv, hne, hno, if_neg, if_false, fallbackLoop_spec,
    Nat.zero_add]

/-- Witness for C7 (amended) at a concrete log with a two-column header and
three data lines. -/
theorem fallback_mode_witness :
    compute_metrics_for_csv
        ["time\taction", "x\tproposed_suggestion", "y\taccepted_suggestion", "z"] =
      { proposed := ["x\tproposed_suggestion", "y\taccepted_suggestion", "z"].countP
          (fun l => (splitTabs l)[1]? == some "proposed_suggestion"),
        accepted := ["x\tproposed_suggestion", "y\taccepted_suggestion", "z"].countP
          (fun l => (splitTabs l)[1]? == some "accepted_suggestion"),
        suggested_chars := 0, suggested_chars_deleted := 0 } :=
  fallback_mode "time\taction"
    ["x\tproposed_suggestion", "y\taccepted_suggestion", "z"] (by decide) (by decide)

/-- Counterexample to claim C9 as stated: selecting the `transducer`
exercise with no external fixture file makes the harness crash on the
builtin-table lookup (an uncaught `KeyError`, modelled as `Except.error`),
so the process exits non-zero although no case failed and the command line
was accepted by the argument parser: the crash is neither of the two exit
reasons the claim allows. -/
theorem harness_exit_cex :
    mainRun "transducer" none (fun _ => (0, "")) false = .error "transducer" ∧
    (Except.error "transducer" : Except String Nat) ≠ .ok 0 ∧
    (Except.error "transducer" : Except String Nat) ≠ .ok 1 :=
  ⟨rfl, fun h => Except.noConfusion h, fun h => Except.noConfusion h⟩

/-- Claim C9 as amended: whenever case selection succeeds, the harness exits
0 iff every case passed (and 1 otherwise); it crashes (exits non-zero with
an uncaught lookup error) exactly when the selected exercise is missing from
the fixture table in use — which is the case for `transducer` with no
external fixture file, since no builtin `transducer` table exists. -/
theorem harness_exit (mode : String)
    (tbl : Option (List (String × List TestCase)))
    (run : TestCase → Int × String) (exact : Bool) :
    (∀ cs, choose_cases mode tbl = .ok cs →
       mainRun mode tbl run exact =
         .ok (if cs.all (runCasePassed run exact) then 0 else 1) ∧
       (mainRun mode tbl run exact = .ok 0 ↔
          cs.all (runCasePassed run exact) = true)) ∧
    (∀ e, mainRun mode tbl run exact = .error e ↔ choose_cases mode tbl = .error e) ∧
    lookupCases BUILTIN_CASES "transducer" = none := by
  refine ⟨?_, ?_, rfl⟩
  · intro cs h
    have hc : (cs.countP (fun c => ! runCasePassed run exact c) = 0) ↔
        (cs.all (runCasePassed run exact) = true) := by
      simp [List.countP_eq_zero, List.all_eq_true]
    constructor
    · simp only [mainRun, h]
      congr 1
      exact if_congr hc rfl rfl
    · simp only [mainRun, h]
      by_cases hall : cs.all (runCasePassed run exact) = true
      · simp [hc, hall]
      · simp [hc, hall]
  · intro e
    simp only [mainRun]
    cases hch : choose_cases mode tbl <;> simp [hch]

/-- Witness for C9 (amended): selecting `cancel` against a child that always
exits 0 with empty output reaches the normal exit-code path. -/
theorem harness_exit_witness :
    mainRun "cancel" none (fun _ => (0, "")) false =
      .ok (if cancelCases.all (runCasePassed (fun _ => (0, "")) false) then 0 else 1) :=
  ((harness_exit "cancel" none (fun _ => (0, "")) false).1 cancelCases rfl).1

theorem buildMapping_ok (kvs : List (String × Json)) (acc : List (Json × Json))
    (h : ∀ p ∈ kvs, entrySafe p.2 = true) :
    ∃ m, buildMapping kvs acc = .ok m := by
  induction kvs generalizing acc with
  | nil => exact ⟨acc, rfl⟩
  | cons e t ih =>
    have he : entrySafe e.2 = true := h e (List.mem_cons_self e t)
    have ht : ∀ p ∈ t, entrySafe p.2 = true := fun p hp => h p (List.mem_cons_of_mem _ hp)
    obtain ⟨k, v⟩ := e
    cases v with
    | obj fields =>
      simp only [buildMapping]
      by_cases htr : (truthy (jget fields "obfuscatedDirName") &&
          truthy (jget fields "actualName")) = true
      · have hh : jsonHashable (jget fields "obfuscatedDirName") = true := by
          simp only [entrySafe, htr, Bool.not_true, Bool.false_or] at he
          exact he
        simp only [htr, if_true, hh]
        exact ih _ ht
      · simp only [Bool.not_eq_true] at htr
        simp only [htr, Bool.false_eq_true, if_false]
        exact ih _ ht
    | null => exact ih _ ht
    | bool b => exact ih _ ht
    | num q => exact ih _ ht
    | str s => exact ih _ ht
    | arr elems => exact ih _ ht

/-- Counterexample to claim C5 as stated: a mapping file whose content
parses to a JSON array (here `[]`) makes `load_mapping_file` call
`.values()` on a non-dictionary, an uncaught `AttributeError` — a fatal
error, so the claim's "for every possible content" fails. -/
theorem load_mapping_cex :
    load_mapping_file (some (.ok (Json.arr []))) = .error PyErr.attributeError := rfl

/-- Claim C5 as amended: `load_mapping_file` is never fatal on a missing
file or an unparsable document (both yield the empty mapping with a
warning), and on any parsed JSON object it returns a (possibly empty or
partial) mapping provided every entry that is an object carrying both a
truthy `obfuscatedDirName` and a truthy `actualName` has a hashable
`obfuscatedDirName`; a document parsing to a non-object value, or an entry
whose obfuscated name is an unhashable container, raises an uncaught
(fatal) error. -/
theorem load_mapping_never_fatal (file : Option (Except Unit Json)) :
    (file = none → load_mapping_file file = .ok []) ∧
    (∀ e, file = some (.error e) → load_mapping_file file = .ok []) ∧
    (∀ kvs, file = some (.ok (Json.obj kvs)) →
       (∀ p ∈ kvs, entrySafe p.2 = true) →
       ∃ m, load_mapping_file file = .ok m) := by
  refine ⟨?_, ?_, ?_⟩
  · rintro rfl; rfl
  · rintro e rfl; rfl
  · rintro kvs rfl h
    exact buildMapping_ok kvs [] h

/-- Witness for C5 (amended): a missing mapping file yields the empty
mapping. -/
theorem load_mapping_never_fatal_witness :
    load_mapping_file none = .ok [] :=
  (load_mapping_never_fatal none).1 rfl

/-! ### Replay invariant lemmas -/

theorem clampNat_le (v : Int) (hi : Nat) : clampNat v hi ≤ hi := by
  unfold clampNat clampI
  omega

theorem countS_replicate_S (n : Nat) : countS (List.replicate n Tag.S) = n := by
  simp [countS]

theorem countS_replicate_T (n : Nat) : countS (List.replicate n Tag.T) = 0 := by
  simp [countS, List.count_replicate, beq_iff_eq]

theorem countS_replicate_U (n : Nat) : countS (List.replicate n Tag.U) = 0 := by
  simp [countS, List.count_replicate, beq_iff_eq]

theorem countS_append (a b : List Tag) : countS (a ++ b) = countS a + countS b := by
  simp [countS]

theorem countS_padTo (l : List Tag) (b : Nat) : countS (padTo l b) = countS l := by
  unfold padTo
  split
  · simp [countS_append, countS_replicate_U]
  · rfl

theorem length_padTo (l : List Tag) (b : Nat) :
    (padTo l b).length = max l.length b := by
  unfold padTo
  split <;> simp <;> omega

theorem countS_insertReplicate (l : List Tag) (n L : Nat) (t : Tag) :
    countS (l.take n ++ List.replicate L t ++ l.drop n) =
      countS l + countS (List.replicate L t) := by
  simp only [countS, List.count_append]
  have h := congrArg (List.count Tag.S) (List.take_append_drop n l)
  simp only [List.count_append] at h
  omega

theorem countS_eraseIdx (l : List Tag) (i : Nat) (h : i < l.length) :
    countS (l.eraseIdx i) + (if l.getD i Tag.U = Tag.S then 1 else 0) = countS l := by
  induction l generalizing i with
  | nil => simp at h
  | cons a t ih =>
    cases i with
    | zero =>
      simp [List.eraseIdx_cons_zero, countS, List.count_cons, beq_iff_eq]
    | succ n =>
      have h' : n < t.length := by simpa using h
      have hrec := ih n h'
      simp only [List.eraseIdx_cons_succ, List.getD_cons_succ, countS,
        List.count_cons] at *
      omega

theorem delLoop_spec (k : Nat) (buf : List Tag) (caret dels : Nat)
    (hk : k ≤ caret) (hc : caret ≤ buf.length) :
    (delLoop k buf caret dels).1.length + k = buf.length ∧
    (delLoop k buf caret dels).2.2 + countS (delLoop k buf caret dels).1 =
      dels + countS buf ∧
    dels ≤ (delLoop k buf caret dels).2.2 := by
  induction k generalizing buf caret dels with
  | zero => simp [delLoop]
  | succ n ih =>
    have h1 : caret - 1 < buf.length := by omega
    have hlen : (buf.eraseIdx (caret - 1)).length = buf.length - 1 :=
      List.length_eraseIdx_of_lt h1
    have hcount := countS_eraseIdx buf (caret - 1) h1
    simp only [delLoop]
    by_cases hch : buf.getD (caret - 1) Tag.U = Tag.S
    · have hrec := ih (buf.eraseIdx (caret - 1)) (caret - 1) (dels + 1)
        (by omega) (by omega)
      simp only [hch, if_pos, if_true] at *
      omega
    · have hrec := ih (buf.eraseIdx (caret - 1)) (caret - 1) dels
        (by omega) (by omega)
      simp only [hch, if_neg, if_false] at *
      omega

theorem acceptedStep_invS (st : St) (info : Option String) (ca : Int)
    (h : InvSt st) : InvSt (acceptedStep st info ca) := by
  unfold acceptedStep
  by_cases hL : 0 < suggestionLengthOf info
  · simp only [hL, if_true, InvSt]
    refine ⟨clampNat_le _ _, ?_⟩
    rw [countS_insertReplicate, countS_padTo, countS_replicate_S]
    have h2 := h.2
    omega
  · simp only [hL, if_false, InvSt]
    exact ⟨clampNat_le _ _, h.2⟩

theorem typedStep_invS (st : St) (ca : Int) (h : InvSt st) :
    InvSt (typedStep st ca) := by
  unfold typedStep
  by_cases hd : 0 < (max 0 (ca - (st.caret : Int))).toNat
  · simp only [hd, if_true, InvSt]
    refine ⟨clampNat_le _ _, ?_⟩
    rw [countS_insertReplicate, countS_padTo, countS_replicate_T]
    have h2 := h.2
    omega
  · simp only [hd, if_false, InvSt]
    exact ⟨clampNat_le _ _, h.2⟩

theorem deletionStep_spec (st : St) (info : Option String) (ca : Int) :
    (deletionStep st info ca).buf.length + delCountOf st info ca = st.buf.length ∧
    (deletionStep st info ca).suggested_chars_deleted +
        countS (deletionStep st info ca).buf =
      st.suggested_chars_deleted + countS st.buf ∧
    delCountOf st info ca ≤ clampNat (st.caret : Int) st.buf.length := by
  have hc : clampNat (st.caret : Int) st.buf.length ≤ st.buf.length := clampNat_le _ _
  have hk : delCountOf st info ca ≤ clampNat (st.caret : Int) st.buf.length :=
    Nat.min_le_right _ _
  have hspec := delLoop_spec (delCountOf st info ca) st.buf
    (clampNat (st.caret : Int) st.buf.length) 0 hk hc
  refine ⟨?_, ?_, hk⟩
  · simpa [deletionStep] using hspec.1
  · have := hspec.2.1
    simp only [deletionStep]
    omega

theorem deletionStep_invS (st : St) (info : Option String) (ca : Int)
    (h : InvSt st) : InvSt (deletionStep st info ca) := by
  have hspec := deletionStep_spec st info ca
  refine ⟨?_, ?_⟩
  · simp only [deletionStep]
    exact clampNat_le _ _
  · have h2 := h.2
    have h3 := hspec.2.1
    have hsc : (deletionStep st info ca).suggested_chars = st.suggested_chars := rfl
    omega

theorem currentCodeStep_invS (st : St) (ca : Int) (h : InvSt st) :
    InvSt (currentCodeStep st ca) := by
  unfold InvSt
  simp only [currentCodeStep]
  refine ⟨clampNat_le _ _, ?_⟩
  rw [countS_replicate_U]
  have h2 := h.2
  omega

theorem stepRow_invS (st : St) (row : Row) (h : InvSt st) :
    InvSt (stepRow st row) := by
  unfold stepRow
  by_cases h1 : row.action = "proposed_suggestion"
  · simpa only [h1, if_true, if_pos] using h
  · simp only [h1, if_false]
    by_cases h2 : row.action = "accepted_suggestion"
    · simp only [h2, if_true]
      exact acceptedStep_invS st row.info _ h
    · simp only [h2, if_false]
      by_cases h3 : row.action = "character_typed"
      · simp only [h3, if_true]
        exact typedStep_invS st _ h
      · simp only [h3, if_false]
        by_cases h4 : row.action = "deletion"
        · simp only [h4, if_true]
          exact deletionStep_invS st row.info _ h
        · simp only [h4, if_false]
          by_cases h5 : row.action = "current_code"
          · simp only [h5, if_true]
            exact currentCodeStep_invS st _ h
          · simp only [h5, if_false]
            exact ⟨clampNat_le _ _, h.2⟩

theorem acceptedStep_mono (st : St) (info : Option String) (ca : Int) :
    st.suggested_chars ≤ (acceptedStep st info ca).suggested_chars ∧
    st.suggested_chars_deleted ≤ (acceptedStep st info ca).suggested_chars_deleted := by
  unfold acceptedStep
  by_cases hL : 0 < suggestionLengthOf info <;> simp [hL]

theorem typedStep_mono (st : St) (ca : Int) :
    st.suggested_chars ≤ (typedStep st ca).suggested_chars ∧
    st.suggested_chars_deleted ≤ (typedStep st ca).suggested_chars_deleted := by
  unfold typedStep
  by_cases hd : 0 < (max 0 (ca - (st.caret : Int))).toNat <;> simp [hd]

theorem deletionStep_mono (st : St) (info : Option String) (ca : Int) :
    st.suggested_chars ≤ (deletionStep st info ca).suggested_chars ∧
    st.suggested_chars_deleted ≤ (deletionStep st info ca).suggested_chars_deleted := by
  simp [deletionStep]

theorem stepRow_mono (st : St) (row : Row) :
    st.suggested_chars ≤ (stepRow st row).suggested_chars ∧
    st.suggested_chars_deleted ≤ (stepRow st row).suggested_chars_deleted := by
  unfold stepRow
  by_cases h1 : row.action = "proposed_suggestion"
  · simp [h1]
  · simp only [h1, if_false]
    by_cases h2 : row.action = "accepted_suggestion"
    · simp only [h2, if_true]
      exact acceptedStep_mono st row.info _
    · simp only [h2, if_false]
      by_cases h3 : row.action = "character_typed"
      · simp only [h3, if_true]
        exact typedStep_mono st _
      · simp only [h3, if_false]
        by_cases h4 : row.action = "deletion"
        · simp only [h4, if_true]
          exact deletionStep_mono st row.info _
        · simp only [h4, if_false]
          by_cases h5 : row.action = "current_code"
          · simp [h5, currentCodeStep]
          · simp [h5]

theorem initSt_invS : InvSt initSt := by
  constructor <;> simp [initSt, countS]

theorem replay_invS (rows : List Row) : InvSt (replay rows) := by
  have main : ∀ st, InvSt st → InvSt (rows.foldl stepRow st) := by
    induction rows with
    | nil => exact fun st h => h
    | cons r t ih => exact fun st h => ih _ (stepRow_invS st r h)
  exact main initSt initSt_invS

theorem stepRow_caret_le (st : St) (row : Row) (h : st.caret ≤ st.buf.length) :
    (stepRow st row).caret ≤ (stepRow st row).buf.length := by
  unfold stepRow
  by_cases h1 : row.action = "proposed_suggestion"
  · simpa [h1] using h
  · simp only [h1, if_false]
    by_cases h2 : row.action = "accepted_suggestion"
    · unfold acceptedStep
      by_cases hL : 0 < suggestionLengthOf row.info <;>
        simp [h2, hL, clampNat_le]
    · simp only [h2, if_false]
      by_cases h3 : row.action = "character_typed"
      · unfold typedStep
        by_cases hd : 0 < (max 0 (caretAfterOf st row - (st.caret : Int))).toNat <;>
          simp [h3, hd, clampNat_le]
      · simp only [h3, if_false]
        by_cases h4 : row.action = "deletion"
        · simp [h4, deletionStep, clampNat_le]
        · simp only [h4, if_false]
          by_cases h5 : row.action = "current_code"
          · simp only [h5, if_true, if_pos, currentCodeStep]
            exact clampNat_le _ _
          · simp only [h5, if_false]
            exact clampNat_le _ _

/-- Claim C2: the replay rejects no row.  Given any state whose caret lies
inside the buffer, processing any row keeps the stored caret inside the
(new) buffer; for every action other than `accepted_suggestion` the
`caret_after` value actually used — parsed from the row with unparsable or
missing values defaulting to the current caret — has been clamped into
`[0, buffer length]`; and a `deletion` row removes exactly
`min(n, clamped caret)` characters, never more than the number of
characters present before the caret. -/
theorem no_action_rejected (st : St) (row : Row) (h : st.caret ≤ st.buf.length) :
    ((stepRow st row).caret ≤ (stepRow st row).buf.length) ∧
    (row.action ≠ "accepted_suggestion" →
       0 ≤ caretAfterOf st row ∧ caretAfterOf st row ≤ (st.buf.length : Int)) ∧
    (row.action = "deletion" →
       (stepRow st row).buf.length +
           delCountOf st row.info (caretAfterOf st row) = st.buf.length ∧
       delCountOf st row.info (caretAfterOf st row) ≤
           clampNat (st.caret : Int) st.buf.length ∧
       clampNat (st.caret : Int) st.buf.length ≤ st.buf.length) := by
  refine ⟨stepRow_caret_le st row h, ?_, ?_⟩
  · intro hne
    unfold caretAfterOf clampI
    rw [if_neg hne]
    omega
  · intro hdel
    have h1 : row.action ≠ "proposed_suggestion" := by simp [hdel]
    have h2 : row.action ≠ "accepted_suggestion" := by simp [hdel]
    have h3 : row.action ≠ "character_typed" := by simp [hdel]
    have hstep : stepRow st row = deletionStep st row.info (caretAfterOf st row) := by
      unfold stepRow
      rw [if_neg h1, if_neg h2, if_neg h3, if_pos hdel]
    rw [hstep]
    have hspec := deletionStep_spec st row.info (caretAfterOf st row)
    exact ⟨hspec.1, hspec.2.2, clampNat_le _ _⟩

/-- Witness for C2 at the concrete state `stW` and row `rowDelW`. -/
theorem no_action_rejected_witness :
    ((stepRow stW rowDelW).caret ≤ (stepRow stW rowDelW).buf.length) ∧
    (rowDelW.action ≠ "accepted_suggestion" →
       0 ≤ caretAfterOf stW rowDelW ∧
       caretAfterOf stW rowDelW ≤ (stW.buf.length : Int)) ∧
    (rowDelW.action = "deletion" →
       (stepRow stW rowDelW).buf.length +
           delCountOf stW rowDelW.info (caretAfterOf stW rowDelW) = stW.buf.length ∧
       delCountOf stW rowDelW.info (caretAfterOf stW rowDelW) ≤
           clampNat (stW.caret : Int) stW.buf.length ∧
       clampNat (stW.caret : Int) stW.buf.length ≤ stW.buf.length) :=
  no_action_rejected stW rowDelW (by decide)

/-- Claim C10: after replaying any log the caret lies in
`[0, buffer length]` and the deleted-suggested-characters counter never
exceeds the suggested-characters counter; moreover both counters are
non-decreasing across any further row.  (Since `replay` ranges over all row
lists, this covers the state after every row of any log.) -/
theorem replay_loop_invariant (rows : List Row) (row : Row) :
    (replay rows).caret ≤ (replay rows).buf.length ∧
    (replay rows).suggested_chars_deleted ≤ (replay rows).suggested_chars ∧
    (replay rows).suggested_chars ≤ (stepRow (replay rows) row).suggested_chars ∧
    (replay rows).suggested_chars_deleted ≤
      (stepRow (replay rows) row).suggested_chars_deleted := by
  have h := replay_invS rows
  have hm := stepRow_mono (replay rows) row
  have h2 := h.2
  exact ⟨h.1, by omega, hm.1, hm.2⟩

theorem foldl_append_acc {α β : Type} (f : α → List β) (l : List α) (init : List β) :
    l.foldl (fun acc x => acc ++ f x) init = init ++ l.flatMap f := by
  induction l generalizing init with
  | nil => simp
  | cons a t ih => simp [ih, List.flatMap_cons]

theorem methodPairs_eq (l : List (String × List (String × String))) (m : String) :
    methodPairs l m =
      l.flatMap (fun pm =>
        (pm.2.filter (fun q => q.2 == m)).map (fun q => (pm.1, q.1))) := by
  unfold methodPairs
  rw [foldl_append_acc]
  simp

/-- Claim C6: for every method, the `problem_count` the aggregation computes
from that method's pair list equals the number of DISTINCT problem names in
whose mapping the method's real name appears — for arbitrary scan results
`all_results`, so independent of how many assistant directories or log files
exist underneath, including problems whose scan produced no matching data. -/
theorem problem_count_distinct_problems
    (all_mappings : List (String × List (String × String)))
    (all_results : List (String × ScanResults)) (method : String) :
    (aggregateForMethod all_results (methodPairs all_mappings method)).problem_count =
      ((all_mappings.filter (fun pm => pm.2.any (fun q => q.2 == method))).map
          Prod.fst).toFinset.card := by
  have h1 : (aggregateForMethod all_results (methodPairs all_mappings method)).problem_count
      = ((methodPairs all_mappings method).map Prod.fst).dedup.length := rfl
  rw [h1, ← List.card_toFinset]
  congr 1
  ext x
  simp [methodPairs_eq]
  constructor
  · rintro ⟨x1, a, b, hab, hx1, rfl⟩
    exact ⟨b, hab, x1, hx1⟩
  · rintro ⟨b, hab, a, ha⟩
    exact ⟨a, x, b, hab, ha, rfl⟩

/-- Counterexample to claim C4 as stated: with both `total_proposed` values
positive and method1's acceptance rate (2/1) strictly above method2's (0/1),
the z-test returns exactly 0.5 — not a value strictly below 0.5 — because
the pooled proportion is 1 and the pooled standard error is 0.  (Acceptance
rates above 1 are reachable: the engine counts proposals and acceptances
independently.) -/
theorem two_proportion_z_test_cex :
    0 < mZa.total_proposed ∧ 0 < mZb.total_proposed ∧
    (mZb.total_accepted : ℝ) / mZb.total_proposed <
      (mZa.total_accepted : ℝ) / mZa.total_proposed ∧
    two_proportion_z_test PhiW true mZa mZb = some (1 / 2) ∧
    ¬ ((1 : ℝ) / 2 < 1 / 2) := by
  refine ⟨by decide, by decide, by norm_num [mZa, mZb], ?_, by norm_num⟩
  simp only [two_proportion_z_test, mZa, mZb]
  norm_num [Real.sqrt_zero]

/-- Claim C4 as amended: the z-test (with `Phi` any strictly monotone CDF
taking value 1/2 at 0) returns the not-a-number sentinel when the statistics
capability is unavailable or either `total_proposed` is 0; returns exactly
0.5 when the two sample proportions are exactly equal; and returns a value
strictly below 0.5 whenever method1's acceptance rate strictly exceeds
method2's, provided each method's `total_accepted` does not exceed its
`total_proposed` (otherwise the pooled standard error can vanish and the
test returns 0.5, see the counterexample). -/
theorem two_proportion_z_test_props (Phi : ℝ → ℝ) (m1 m2 : AggregateMetrics)
    (hmono : StrictMono Phi) (h0 : Phi 0 = 1 / 2) :
    (two_proportion_z_test Phi false m1 m2 = none) ∧
    (m1.total_proposed = 0 ∨ m2.total_proposed = 0 →
       two_proportion_z_test Phi true m1 m2 = none) ∧
    (0 < m1.total_proposed → 0 < m2.total_proposed →
       ((m1.total_accepted : ℝ) / m1.total_proposed =
            (m2.total_accepted : ℝ) / m2.total_proposed →
          two_proportion_z_test Phi true m1 m2 = some (1 / 2)) ∧
       (m1.total_accepted ≤ m1.total_proposed →
          m2.total_accepted ≤ m2.total_proposed →
          (m2.total_accepted : ℝ) / m2.total_proposed <
            (m1.total_accepted : ℝ) / m1.total_proposed →
          two_proportion_z_test Phi true m1 m2 ≠ none ∧
          (two_proportion_z_test Phi true m1 m2).getD 1 < 1 / 2)) := by
  refine ⟨by simp [two_proportion_z_test], ?_, ?_⟩
  · intro h
    simp [two_proportion_z_test, h]
  · intro hn1 hn2
    have hne0 : ¬ (m1.total_proposed = 0 ∨ m2.total_proposed = 0) := by omega
    constructor
    · intro heq
      simp only [two_proportion_z_test]
      rw [if_neg (by simp), if_neg hne0, if_pos heq]
    · intro hx1 hx2 hlt
      have hN1pos : (0 : ℝ) < (m1.total_proposed : ℝ) := by exact_mod_cast hn1
      have hN2pos : (0 : ℝ) < (m2.total_proposed : ℝ) := by exact_mod_cast hn2
      have hAle : (m1.total_accepted : ℝ) ≤ (m1.total_proposed : ℝ) := by
        exact_mod_cast hx1
      have hBle : (m2.total_accepted : ℝ) ≤ (m2.total_proposed : ℝ) := by
        exact_mod_cast hx2
      have hA0 : (0 : ℝ) ≤ (m1.total_accepted : ℝ) := Nat.cast_nonneg _
      have hB0 : (0 : ℝ) ≤ (m2.total_accepted : ℝ) := Nat.cast_nonneg _
      have hpne : ¬ ((m1.total_accepted : ℝ) / (m1.total_proposed : ℝ) =
          (m2.total_accepted : ℝ) / (m2.total_proposed : ℝ)) := by
        intro hcontra
        rw [hcontra] at hlt
        exact lt_irrefl _ hlt
      have hp1le : (m1.total_accepted : ℝ) / (m1.total_proposed : ℝ) ≤ 1 := by
        rw [div_le_one hN1pos]
        exact hAle
      have hp2lt1 : (m2.total_accepted : ℝ) / (m2.total_proposed : ℝ) < 1 :=
        lt_of_lt_of_le hlt hp1le
      have hBltN2 : (m2.total_accepted : ℝ) < (m2.total_proposed : ℝ) := by
        rwa [div_lt_one hN2pos] at hp2lt1
      have hp2nonneg : (0 : ℝ) ≤ (m2.total_accepted : ℝ) / (m2.total_proposed : ℝ) :=
        div_nonneg hB0 hN2pos.le
      have hp1pos : (0 : ℝ) < (m1.total_accepted : ℝ) / (m1.total_proposed : ℝ) :=
        lt_of_le_of_lt hp2nonneg hlt
      have hApos : (0 : ℝ) < (m1.total_accepted : ℝ) := by
        rcases eq_or_lt_of_le hA0 with hAeq | hApos
        · exfalso
          rw [← hAeq] at hp1pos
          simp at hp1pos
        · exact hApos
      have hpooledpos : (0 : ℝ) <
          ((m1.total_accepted : ℝ) + (m2.total_accepted : ℝ)) /
            ((m1.total_proposed : ℝ) + (m2.total_proposed : ℝ)) :=
        div_pos (by linarith) (by linarith)
      have hpooledlt1 :
          ((m1.total_accepted : ℝ) + (m2.total_accepted : ℝ)) /
            ((m1.total_proposed : ℝ) + (m2.total_proposed : ℝ)) < 1 := by
        rw [div_lt_one (by linarith)]
        linarith
      have hradpos : (0 : ℝ) <
          ((m1.total_accepted : ℝ) + (m2.total_accepted : ℝ)) /
              ((m1.total_proposed : ℝ) + (m2.total_proposed : ℝ)) *
            (1 - ((m1.total_accepted : ℝ) + (m2.total_accepted : ℝ)) /
              ((m1.total_proposed : ℝ) + (m2.total_proposed : ℝ))) *
            (1 / (m1.total_proposed : ℝ) + 1 / (m2.total_proposed : ℝ)) := by
        apply mul_pos (mul_pos hpooledpos (by linarith))
        positivity
      have hsepos : (0 : ℝ) < Real.sqrt
          (((m1.total_accepted : ℝ) + (m2.total_accepted : ℝ)) /
              ((m1.total_proposed : ℝ) + (m2.total_proposed : ℝ)) *
            (1 - ((m1.total_accepted : ℝ) + (m2.total_accepted : ℝ)) /
              ((m1.total_proposed : ℝ) + (m2.total_proposed : ℝ))) *
            (1 / (m1.total_proposed : ℝ) + 1 / (m2.total_proposed : ℝ))) :=
        Real.sqrt_pos.mpr hradpos
      have hval : two_proportion_z_test Phi true m1 m2 =
          some (1 - Phi (((m1.total_accepted : ℝ) / (m1.total_proposed : ℝ) -
              (m2.total_accepted : ℝ) / (m2.total_proposed : ℝ)) /
            Real.sqrt
              (((m1.total_accepted : ℝ) + (m2.total_accepted : ℝ)) /
                  ((m1.total_proposed : ℝ) + (m2.total_proposed : ℝ)) *
                (1 - ((m1.total_accepted : ℝ) + (m2.total_accepted : ℝ)) /
                  ((m1.total_proposed : ℝ) + (m2.total_proposed : ℝ))) *
                (1 / (m1.total_proposed : ℝ) + 1 / (m2.total_proposed : ℝ))))) := by
        simp only [two_proportion_z_test]
        rw [if_neg (by simp), if_neg hne0, if_neg hpne, if_neg (ne_of_gt hsepos)]
      have hzpos : (0 : ℝ) <
          ((m1.total_accepted : ℝ) / (m1.total_proposed : ℝ) -
              (m2.total_accepted : ℝ) / (m2.total_proposed : ℝ)) /
            Real.sqrt
              (((m1.total_accepted : ℝ) + (m2.total_accepted : ℝ)) /
                  ((m1.total_proposed : ℝ) + (m2.total_proposed : ℝ)) *
                (1 - ((m1.total_accepted : ℝ) + (m2.total_accepted : ℝ)) /
                  ((m1.total_proposed : ℝ) + (m2.total_proposed : ℝ))) *
                (1 / (m1.total_proposed : ℝ) + 1 / (m2.total_proposed : ℝ))) :=
        div_pos (by linarith) hsepos
      have hPhi := hmono hzpos
      rw [h0] at hPhi
      rw [hval]
      constructor
      · simp
      · simp only [Option.getD_some]
        linarith

/-- Witness for C4 (amended) at concrete metrics (1 acceptance of 1 proposal
versus 0 acceptances of 1 proposal) and the concrete CDF `PhiW`. -/
theorem two_proportion_z_test_props_witness :
    two_proportion_z_test PhiW true mZc mZb ≠ none ∧
    (two_proportion_z_test PhiW true mZc mZb).getD 1 < 1 / 2 :=
  ((two_proportion_z_test_props PhiW mZc mZb
      (by intro a b h; simpa [PhiW] using h)
      (by norm_num [PhiW])).2.2
    (by decide) (by decide)).2
    (by decide) (by decide)
    (by norm_num [mZb, mZc])

end TabFrontend
